import Mathlib

/-!
Verification of the folder-to-manifest pipeline of the VideoInterleavingHTML
repository: the Discovery stage (get_folders_list.py) and the Sequence
Compaction stage (make_file_lists.py).  The Python code is shallowly embedded:
filesystem state is an explicit finite map from directory paths to listings,
image decoding is an explicit oracle function, and the emitted JSON files are
modelled by an inductive JSON value type.  All definitions are executable.
-/

namespace VideoInterleaving

/-! ## Character-list string primitives

Python string operations are modelled on the character data of Lean strings so
that everything reduces in the kernel.  Strings here are ASCII paths and file
names, for which Python `str` semantics and these models agree. -/

/-- Python s.lower(): lowercase every character. -/
def lowerStr (s : String) : String := ⟨s.data.map Char.toLower⟩

/-- Python s.endswith(suf): suffix test on character data. -/
def endsWithB (s suf : String) : Bool := decide (suf.data.IsSuffix s.data)

/-- Python s.startswith(pre): test on character data. -/
def startsWithB (pre s : String) : Bool := decide (pre.data.IsPrefix s.data)

/-- Split a character list at every occurrence of a separator character,
keeping empty chunks, like Python s.split(sep) for a one-character sep. -/
def splitCharAux (sep : Char) (cur : List Char) : List Char → List (List Char)
  | [] => [cur.reverse]
  | d :: ds => if d = sep then cur.reverse :: splitCharAux sep [] ds
               else splitCharAux sep (d :: cur) ds

/-- Python s.split(sep) for a one-character separator. -/
def splitChar (sep : Char) (l : List Char) : List (List Char) := splitCharAux sep [] l

/-- The components of a path split on the slash character. -/
def splitSlash (s : String) : List String := (splitChar '/' s.data).map (fun l => ⟨l⟩)

/-- Python os.path.basename: everything after the last slash. -/
def basename (p : String) : String := ⟨(splitChar '/' p.data).getLastD []⟩

/-- Python s.partition(sep)[0] for sep an underscore: the part of s before the
first underscore, or all of s if there is none. -/
def leadTok (s : String) : String := ⟨(splitChar '_' s.data).headD []⟩

/-- Python s.isdigit() restricted to ASCII: nonempty and all decimal digits. -/
def isDigitStr (s : String) : Bool := !s.data.isEmpty && s.data.all Char.isDigit

/-- Python int(s) on a string of decimal digits. -/
def digitsVal (l : List Char) : Nat := l.foldl (fun a c => a * 10 + (c.toNat - 48)) 0

/-- Python int(s) on a digit string. -/
def digitsToNat (s : String) : Nat := digitsVal s.data

/-- Join a list of path components with slashes (no component holds a slash). -/
def joinSlash (l : List String) : String := ⟨List.intercalate ['/'] (l.map String.data)⟩

/-- Python posixpath.join(a, b) for two arguments. -/
def pyJoin (a b : String) : String :=
  if startsWithB "/" b then b
  else if a = "" then b
  else if endsWithB a "/" then a ++ b
  else a ++ "/" ++ b

/-- Python posixpath.normpath.  Collapses empty and dot components and resolves
parent-directory components against preceding ones, exactly following the
CPython algorithm (including the double-slash root special case). -/
def normpath (p : String) : String :=
  if p = "" then "." else
  let initSlashes : Nat :=
    if startsWithB "/" p then
      (if startsWithB "//" p && !startsWithB "///" p then 2 else 1)
    else 0
  let newComps := (splitSlash p).foldl (fun acc comp =>
    if comp = "" || comp = "." then acc
    else if comp ≠ ".." || (initSlashes = 0 && acc = []) || acc.getLastD "" = ".."
      then acc ++ [comp]
    else if acc ≠ [] then acc.dropLast
    else acc) []
  let path := String.mk (List.replicate initSlashes '/') ++ joinSlash newComps
  if path = "" then "." else path

/-- Length of the common leading run of two component lists, as used by
Python os.path.relpath via commonprefix on split paths. -/
def commonLen : List String → List String → Nat
  | a :: as, b :: bs => if a = b then commonLen as bs + 1 else 0
  | _, _ => 0

/-- Python posixpath.relpath(path, start) for already-absolute arguments, as
relpath is used in get_folders_list.py (both arguments come from absolute
filesystem walks). -/
def relpath (path start : String) : String :=
  let pl := (splitSlash path).filter (· ≠ "")
  let sl := (splitSlash start).filter (· ≠ "")
  let i := commonLen pl sl
  let rel := List.replicate (sl.length - i) ".." ++ pl.drop i
  if rel = [] then "." else joinSlash rel

/-- Python os.path.splitext(p)[1]: the extension of the basename, empty when
the basename has no dot after its leading run of dots. -/
def extOf (p : String) : String :=
  let core := (splitChar '/' p.data).getLastD [] |>.dropWhile (· = '.')
  if core.contains '.' then ⟨'.' :: (core.reverse.takeWhile (· ≠ '.')).reverse⟩
  else ""

/-- A file qualifies as an image when its lowercased name ends in .png or
.webp (get_folders_list.py line 17 and make_file_lists.py line 153). -/
def isQualifying (f : String) : Bool :=
  endsWithB (lowerStr f) ".png" || endsWithB (lowerStr f) ".webp"

/-! ## Python string and natural-sort ordering -/

/-- Code points of a string; Python compares strings by code point, which is
the lexicographic order on these lists. -/
def strKey (s : String) : List Nat := s.data.map Char.toNat

/-- Python string comparison a <= b, as code-point lexicographic order. -/
def strLe (a b : String) : Prop := strKey a ≤ strKey b

instance : DecidableRel strLe := fun _ _ => inferInstanceAs (Decidable (_ ≤ _))

instance : IsTotal String strLe := ⟨fun a b => le_total (strKey a) (strKey b)⟩

instance : IsTrans String strLe := ⟨fun _ _ _ h h2 => le_trans h h2⟩

/-- A token of the natural sort key: an integer for a digit run, otherwise the
code points of the lowercased text chunk.  Python never compares an int token
against a str token here, because re.split with a capturing digit group always
produces chunks of the same kind at the same position; the cross-kind order of
the Sum.Lex encoding is therefore never exercised. -/
def tokKey (t : List Char) : Nat ⊕ₗ List Nat :=
  if !t.isEmpty && t.all Char.isDigit then toLex (Sum.inl (digitsVal t))
  else toLex (Sum.inr (t.map (fun c => c.toLower.toNat)))

/-- Splitting a character list into alternating non-digit and digit chunks,
like re.split on a captured digit-run group: the result starts and ends with a
(possibly empty) non-digit chunk and alternates with nonempty digit runs. -/
def natSplitAux (isDig : Bool) (cur : List Char) : List Char → List (List Char)
  | [] => if isDig then [cur.reverse, []] else [cur.reverse]
  | c :: cs =>
    if c.isDigit = isDig then natSplitAux isDig (c :: cur) cs
    else cur.reverse :: natSplitAux (!isDig) [c] cs

/-- The chunks of re.split on a captured digit-run group. -/
def natSplit (l : List Char) : List (List Char) := natSplitAux false [] l

/-- natural_sort_key from the source: digit chunks become their integer value
and text chunks are lowercased (make_file_lists.py lines 132-136). -/
def naturalKey (s : String) : List (Nat ⊕ₗ List Nat) := (natSplit s.data).map tokKey

/-- Comparison of file names by natural sort key, the order used by
Python sorted(image_files, key=natural_sort_key). -/
def natLe (a b : String) : Prop := naturalKey a ≤ naturalKey b

instance : DecidableRel natLe := fun _ _ => inferInstanceAs (Decidable (_ ≤ _))

instance : IsTotal String natLe := ⟨fun a b => le_total (naturalKey a) (naturalKey b)⟩

instance : IsTrans String natLe := ⟨fun _ _ _ h h2 => le_trans h h2⟩

/-! ## JSON values and the filesystem model -/

/-- JSON values, the shape of what json.dump serializes: objects keep their
key insertion order, matching Python dict semantics. -/
inductive Json where
  | str (s : String)
  | num (n : Int)
  | bool (b : Bool)
  | null
  | arr (elems : List Json)
  | obj (fields : List (String × Json))

/-- The key list of a JSON object (empty for non-objects). -/
def Json.objKeys : Json → List String
  | .obj fields => fields.map (·.1)
  | _ => []

/-- Whether a JSON value has the one-field object shape with key folders
wrapping an array, the manifest wrapper shape named by the spec. -/
def Json.isFoldersObj : Json → Bool
  | .obj [(k, .arr _)] => k = "folders"
  | _ => false

/-- The folder_rel string fields of the records of an emitted JSON array, in
emission order; used to observe the ordering of a written manifest. -/
def emissionRels (p : String × Json) : List String :=
  match p.2 with
  | .arr es => es.filterMap (fun j =>
      match j with
      | .obj fields =>
        match List.find? (fun q => q.1 = "folder_rel") fields with
        | some (_, .str s) => some s
        | _ => none
      | _ => none)
  | _ => []

/-- The index number fields of the records of an emitted JSON array, in
emission order. -/
def emissionIdxs (p : String × Json) : List Int :=
  match p.2 with
  | .arr es => es.filterMap (fun j =>
      match j with
      | .obj fields =>
        match List.find? (fun q => q.1 = "index") fields with
        | some (_, .num n) => some n
        | _ => none
      | _ => none)
  | _ => []

/-- The filesystem as seen by the scripts: a finite map from directory paths
to their listings.  A path absent from the map does not exist. -/
def Dirs := List (String × List String)

/-- Python os.listdir as a partial map; none models FileNotFoundError or a
false os.path.exists test. -/
def listDir (fs : Dirs) (p : String) : Option (List String) :=
  (List.find? (fun e => e.1 = p) fs).map (·.2)

/-! ## Discovery stage: get_folders_list.py -/

/-- One element of the folder_counts list built in write_folder_list
(get_folders_list.py line 173): the folder's absolute path, the first listed
image file name (none after a failed decode), the decoded dimensions and
alpha flag, and the qualifying-file count. -/
structure FolderInfo where
  folder : String
  first_png : Option String
  width : Nat
  height : Nat
  has_alpha : Bool
  file_count : Nat
deriving DecidableEq

/-- The per-folder record built by create_folder_json_files
(get_folders_list.py lines 45-54).  The index field is a placeholder until
write_json assigns it; the source stores None there initially. -/
structure FolderData where
  index : Nat
  folder_rel : String
  first_png : String
  dimensions : String
  file_count : Nat
  has_alpha : Bool
  alpha_match : String
  file_extension : String
deriving DecidableEq

/-- Python truthiness of an optional string, as in first_png if first_png
else a default: None and the empty string are both falsy. -/
def optTruthy : Option String → Bool
  | none => false
  | some s => s ≠ ""

/-- The folder_data dictionary of create_folder_json_files lines 45-54,
before index assignment. -/
def mkFolderData (scriptDir : String) (fi : FolderInfo) : FolderData :=
  { index := 0
    folder_rel := relpath fi.folder scriptDir
    first_png := if optTruthy fi.first_png then fi.first_png.getD "" else "NoImage"
    dimensions := Nat.repr fi.width ++ "x" ++ Nat.repr fi.height
    file_count := fi.file_count
    has_alpha := fi.has_alpha
    alpha_match := if fi.has_alpha then "Match" else "NoAlpha"
    file_extension :=
      if optTruthy fi.first_png then extOf (fi.first_png.getD "") else "N/A" }

/-- Append a value to the list held at a key of an insertion-ordered
association list, creating the key at the end if absent: the behavior of
defaultdict(list) under group[k].append(v). -/
def groupAppend (g : List (Nat × List FolderData)) (k : Nat) (v : FolderData) :
    List (Nat × List FolderData) :=
  match g with
  | [] => [(k, [v])]
  | (k0, vs) :: rest =>
    if k0 = k then (k0, vs ++ [v]) :: rest else (k0, vs) :: groupAppend rest k v

/-- One iteration of the grouping loop of create_folder_json_files lines
42-58: the folder is routed to the float bucket when its basename starts
with the 255_ marker, else to the main bucket, and sub-grouped by file
count. -/
def bucketStep (scriptDir : String)
    (acc : List (Nat × List FolderData) × List (Nat × List FolderData))
    (fi : FolderInfo) :
    List (Nat × List FolderData) × List (Nat × List FolderData) :=
  let fd := mkFolderData scriptDir fi
  if startsWithB "255_" (basename fi.folder) then
    (acc.1, groupAppend acc.2 fi.file_count fd)
  else
    (groupAppend acc.1 fi.file_count fd, acc.2)

/-- The grouping loop of create_folder_json_files lines 42-58: the main and
float buckets, each sub-grouped by file count. -/
def buildGroups (scriptDir : String) (fis : List FolderInfo) :
    List (Nat × List FolderData) × List (Nat × List FolderData) :=
  fis.foldl (bucketStep scriptDir) ([], [])

/-- The sort key of write_json (get_folders_list.py lines 63-66): the integer
value of the basename's leading underscore-delimited token when it is all
digits, else infinity (the Sum.inr unit component sorts last), tie-broken by
the basename of folder_rel compared as a Python string. -/
def codeSortKey (fd : FolderData) : (Nat ⊕ₗ Unit) ×ₗ List Nat :=
  let b := basename fd.folder_rel
  toLex (if isDigitStr (leadTok b) then toLex (Sum.inl (digitsToNat (leadTok b)))
         else toLex (Sum.inr ()), strKey b)

/-- The ordering induced by codeSortKey, used by Python sorted(key=...). -/
def codeLe (a b : FolderData) : Prop := codeSortKey a ≤ codeSortKey b

instance : DecidableRel codeLe := fun _ _ => inferInstanceAs (Decidable (_ ≤ _))

instance : IsTotal FolderData codeLe := ⟨fun a b => le_total (codeSortKey a) (codeSortKey b)⟩

instance : IsTrans FolderData codeLe := ⟨fun _ _ _ h h2 => le_trans h h2⟩

/-- The index assignment loop of write_json lines 68-69: enumerate from 1 in
sorted order. -/
def assignIdxFrom (n : Nat) : List FolderData → List FolderData
  | [] => []
  | fd :: rest => { fd with index := n } :: assignIdxFrom (n + 1) rest

/-- Indices for a sorted sub-group, starting at 1 as in enumerate(s, 1). -/
def assignIndices (l : List FolderData) : List FolderData := assignIdxFrom 1 l

/-- json.dump of one folder_data dictionary, keys in insertion order. -/
def entryJson (fd : FolderData) : Json :=
  .obj [("index", .num fd.index), ("folder_rel", .str fd.folder_rel),
        ("first_png", .str fd.first_png), ("dimensions", .str fd.dimensions),
        ("file_count", .num fd.file_count), ("has_alpha", .bool fd.has_alpha),
        ("alpha_match", .str fd.alpha_match),
        ("file_extension", .str fd.file_extension)]

/-- The file name format main_folders_N.json. -/
def mainNm (c : Nat) : String := "main_folders_" ++ Nat.repr c ++ ".json"

/-- The file name format float_folders_N.json. -/
def floatNm (c : Nat) : String := "float_folders_" ++ Nat.repr c ++ ".json"

/-- The write_json inner function (get_folders_list.py lines 60-74): for each
(count, sub-group) pair, sort, assign indices, and dump the entry list itself
as the file content, one file per sub-group. -/
def writeJsonFiles (fmtName : Nat → String) (g : List (Nat × List FolderData)) :
    List (String × Json) :=
  g.map (fun e =>
    (fmtName e.1, Json.arr ((assignIndices (List.insertionSort codeLe e.2)).map entryJson)))

/-- create_folder_json_files (get_folders_list.py lines 37-77): the list of
(file name, JSON content) pairs written, main sub-groups first. -/
def createFolderJsonFiles (fis : List FolderInfo) (scriptDir : String) :
    List (String × Json) :=
  writeJsonFiles mainNm (buildGroups scriptDir fis).1 ++
    writeJsonFiles floatNm (buildGroups scriptDir fis).2

/-- The folders_processed preparation step of write_folder_list
(get_folders_list.py lines 85-92): the directory state is the optional list
of files already present; the step creates the directory when missing and
otherwise leaves its contents untouched. -/
def ensureProcessedDir (st : Option (List String)) : List String :=
  match st with
  | none => []
  | some files => files

/-- The folder-scan loop of write_folder_list (get_folders_list.py lines
159-173).  The decode oracle models PIL Image.open on the joined path of the
first listed image: some (w, h, alpha) on success, none when decoding raises.
On failure the loop records first_img None with zero dimensions and no alpha,
logs, and continues with the next folder. -/
def gatherFolderCounts (fs : Dirs) (decode : String → Option (Nat × Nat × Bool)) :
    List String → List FolderInfo
  | [] => []
  | folder :: rest =>
    let image_files := ((listDir fs folder).getD []).filter isQualifying
    match image_files with
    | [] => gatherFolderCounts fs decode rest
    | first :: _ =>
      (match decode (pyJoin folder first) with
        | some (w, h, a) => FolderInfo.mk folder (some first) w h a image_files.length
        | none => FolderInfo.mk folder none 0 0 false image_files.length) ::
        gatherFolderCounts fs decode rest

/-! ## Compaction stage: make_file_lists.py -/

/-- The fields read from one parsed manifest entry in sort_image_files
(make_file_lists.py lines 145 and 161): folder.get with defaults 0 and the
empty string. -/
structure InEntry where
  index : Int
  folder_rel : String
deriving DecidableEq

/-- One output record of sort_image_files (make_file_lists.py lines 160-164):
the preserved index, the normalized relative folder path, and the explicit
sorted image path list. -/
structure OutFolder where
  index : Int
  folder_rel : String
  image_list : List String
deriving DecidableEq

/-- The body of the sort_image_files loop for one folder entry
(make_file_lists.py lines 144-165): normalize the relative path, skip the
entry when the joined absolute path does not exist or holds no qualifying
image, else emit the record with every qualifying file, natural-sorted and
prefixed by the relative folder path. -/
def processEntry (fs : Dirs) (scriptDir : String) (e : InEntry) : Option OutFolder :=
  let rnorm := normpath e.folder_rel
  match listDir fs (pyJoin scriptDir rnorm) with
  | none => none
  | some listing =>
    let image_files := listing.filter isQualifying
    if image_files = [] then none
    else some ⟨e.index, rnorm, (List.insertionSort natLe image_files).map (pyJoin rnorm)⟩

/-- sort_image_files (make_file_lists.py lines 138-165). -/
def sortImageFiles (fs : Dirs) (scriptDir : String) (l : List InEntry) : List OutFolder :=
  l.filterMap (processEntry fs scriptDir)

/-- The inner loop of remove_duplicates (make_file_lists.py lines 184-191):
a seen set (membership is all that Python uses of it) and an output list that
receives each image path not seen before, in order. -/
def dedupSeen (seen acc : List String) : List String → List String
  | [] => acc
  | img :: rest =>
    if seen.contains img then dedupSeen seen acc rest
    else dedupSeen (img :: seen) (acc ++ [img]) rest

/-- De-duplication of one image list as performed by remove_duplicates. -/
def dedupFirst (l : List String) : List String := dedupSeen [] [] l

/-- remove_duplicates (make_file_lists.py lines 180-192). -/
def removeDuplicates (folders : List OutFolder) : List OutFolder :=
  folders.map (fun f => { f with image_list := dedupFirst f.image_list })

/-- json.dump of one sort_image_files record, keys in insertion order. -/
def outFolderJson (f : OutFolder) : Json :=
  .obj [("index", .num f.index), ("folder_rel", .str f.folder_rel),
        ("image_list", .arr (f.image_list.map .str))]

/-- write_json_list (make_file_lists.py lines 167-178): one file at the
joined output path whose content wraps the folder list in a folders object. -/
def writeJsonList (folders : List OutFolder) (outputFolder outputFilename : String) :
    String × Json :=
  (pyJoin outputFolder outputFilename,
    .obj [("folders", .arr (folders.map outFolderJson))])

/-- The output-writing tail of process_files (make_file_lists.py lines
251-285) for one manifest pair: build both lists through sort_image_files and
remove_duplicates, then write main_images.json only when the main list is
nonempty and float_images.json only when the float list is nonempty. -/
def processPairWrites (fs : Dirs) (scriptDir generatedDir : String)
    (mainEntries floatEntries : List InEntry) : List (String × Json) :=
  let am := removeDuplicates (sortImageFiles fs scriptDir mainEntries)
  let af := removeDuplicates (sortImageFiles fs scriptDir floatEntries)
  (if am ≠ [] then [writeJsonList am generatedDir "main_images.json"] else []) ++
    (if af ≠ [] then [writeJsonList af generatedDir "float_images.json"] else [])

/-! ## Manifest pairing: find_default_jsons -/

/-- Full-match extraction for the anchored patterns of find_default_jsons
(make_file_lists.py lines 18-19): the name must be the given leading literal,
then one or more digits (the captured group, returned), then the trailing
literal. -/
def regexKey (lead trail name : String) : Option String :=
  if decide (lead.data.IsPrefix name.data) && decide (trail.data.IsSuffix name.data) &&
      decide (lead.data.length + trail.data.length < name.data.length) &&
      ((name.data.drop lead.data.length).take
        (name.data.length - (lead.data.length + trail.data.length))).all Char.isDigit
  then some ⟨(name.data.drop lead.data.length).take
    (name.data.length - (lead.data.length + trail.data.length))⟩
  else none

/-- Python dict assignment d[k] = v on an insertion-ordered association
list: overwrite in place when the key exists, else append. -/
def dictInsert (m : List (String × String)) (k v : String) : List (String × String) :=
  if m.any (fun p => p.1 = k) then
    m.map (fun p => if p.1 = k then (k, v) else p)
  else m ++ [(k, v)]

/-- Python dict lookup. -/
def dictFind (m : List (String × String)) (k : String) : Option String :=
  (List.find? (fun p => p.1 = k) m).map (·.2)

/-- One iteration of the scan loop of find_default_jsons (make_file_lists.py
lines 24-31): when the file name matches the pattern, store its joined path
under the captured key. -/
def dictStep (lead trail processedDir : String) (m : List (String × String))
    (name : String) : List (String × String) :=
  match regexKey lead trail name with
  | some k => dictInsert m k (pyJoin processedDir name)
  | none => m

/-- The scan loop of find_default_jsons for one pattern: the dictionary from
captured keys to joined paths. -/
def buildFiles (lead trail processedDir : String) (files : List String) :
    List (String × String) :=
  files.foldl (dictStep lead trail processedDir) []

/-- The matching count-suffix keys present in both dictionaries; the Python
set intersection holds exactly these keys, and dictionary keys are already
distinct. -/
def matchingKeys (processedDir : String) (files : List String) : List String :=
  ((buildFiles "float_folders_" ".json" processedDir files).map (·.1)).filter
    (fun k => ((buildFiles "main_folders_" ".json" processedDir files).map (·.1)).contains k)

/-- find_default_jsons (make_file_lists.py lines 12-43): when matching keys
exist, pick sorted(matching_keys)[0] and return the main and float paths
stored under it.  The getD defaults are unreachable: the chosen key is a key
of both dictionaries, so Python's direct indexing cannot raise. -/
def findDefaultJsons (processedDir : String) (files : List String) :
    Option (String × String) :=
  match List.insertionSort strLe (matchingKeys processedDir files) with
  | [] => none
  | k :: _ =>
    some ((dictFind (buildFiles "main_folders_" ".json" processedDir files) k).getD "",
      (dictFind (buildFiles "float_folders_" ".json" processedDir files) k).getD "")

/-! ## Spec-side reference definitions

These definitions follow the wording of the specification (not the source)
and exist only to be compared against the source embeddings above. -/

/-- First-occurrence de-duplication as the specification words it: the first
occurrence of each distinct path is kept, in the order of first occurrence. -/
def keepFirst : List String → List String
  | [] => []
  | x :: xs => x :: keepFirst (xs.filter (fun y => y ≠ x))
termination_by l => l.length
decreasing_by simp only [List.length_cons]; exact Nat.lt_succ_of_le (List.length_filter_le _ _)

/-- Structural variant of keepFirst carrying the set of already-seen paths. -/
def keepFirstSeen (seen : List String) : List String → List String
  | [] => []
  | x :: xs =>
    if seen.contains x then keepFirstSeen seen xs
    else x :: keepFirstSeen (x :: seen) xs

/-- The sort key as claim C3 words it: the same numeric-or-infinite primary
component, but ties broken by the full relative path rather than the
basename. -/
def claimSortKey (fd : FolderData) : (Nat ⊕ₗ Unit) ×ₗ List Nat :=
  let b := basename fd.folder_rel
  toLex (if isDigitStr (leadTok b) then toLex (Sum.inl (digitsToNat (leadTok b)))
         else toLex (Sum.inr ()), strKey fd.folder_rel)

/-- The ordering induced by claimSortKey. -/
def claimLe (a b : FolderData) : Prop := claimSortKey a ≤ claimSortKey b

instance : DecidableRel claimLe := fun _ _ => inferInstanceAs (Decidable (_ ≤ _))

/-- Modelled from the spec: the (value, digit-run text) of the trailing digit
run of a filename before its extension; none when there is no such run.  The
source under src contains no such parsing; the spec describes it for the
compaction revision. -/
def specDigitRun (f : String) : Option (Nat × List Char) :=
  let stem := f.data.take (f.data.length - (extOf f).data.length)
  let run := (stem.reverse.takeWhile Char.isDigit).reverse
  if run.isEmpty then none else some (digitsVal run, run)

/-- Modelled from the spec: a number rendered zero-padded to a given width,
as a printf-style zero-padded placeholder would render it. -/
def padRender (n w : Nat) : List Char :=
  List.replicate (w - (Nat.repr n).data.length) '0' ++ (Nat.repr n).data

/-- Modelled from the spec: a file set mixes zero-padding widths when some
matched file's digit run, re-rendered at the canonical width taken from the
minimum-index file, does not reproduce its original digit-run text. -/
def specMixedPadding (files : List String) : Bool :=
  let matched := files.filterMap specDigitRun
  match matched with
  | [] => false
  | m0 :: rest =>
    let minPair := (m0 :: rest).foldl (fun acc p => if p.1 < acc.1 then p else acc) m0
    matched.any (fun p => padRender p.1 minPair.2.length ≠ p.2)

/-! ## Concrete inputs used by witnesses and counterexamples -/

/-- A small filesystem: one well-formed sequence folder plus one folder whose
file names mix zero-padding widths. -/
def exDirs : Dirs :=
  [("root/imgs/a", ["frame_0002.png", "frame_0001.png", "notes.txt"]),
   ("root/imgs/mix", ["img_1.png", "img_002.png"])]

/-- A manifest entry for the well-formed folder. -/
def entryA : InEntry := ⟨1, "imgs/a"⟩

/-- A manifest entry for the mixed-padding folder. -/
def entryMix : InEntry := ⟨2, "imgs/mix"⟩

/-- A manifest entry whose folder does not exist in exDirs. -/
def entryGone : InEntry := ⟨3, "imgs/gone"⟩

/-- Discovery input: a folder whose basename sorts after another basename
while its full relative path sorts before the other full relative path. -/
def infoApple : FolderInfo := ⟨"/root/z/apple", some "a.png", 4, 4, false, 3⟩

/-- Discovery input paired with infoApple; see infoApple. -/
def infoBanana : FolderInfo := ⟨"/root/a/banana", some "b.png", 4, 4, false, 3⟩

/-- An image decoder that fails on every path. -/
def exDecodeFail (_p : String) : Option (Nat × Nat × Bool) := none

/-- The record Discovery builds for infoApple, after index assignment. -/
def exEntryApple : FolderData := ⟨1, "z/apple", "a.png", "4x4", 3, false, "NoAlpha", ".png"⟩

/-- The record Discovery builds for infoBanana, after index assignment. -/
def exEntryBanana : FolderData := ⟨2, "a/banana", "b.png", "4x4", 3, false, "NoAlpha", ".png"⟩

/-- The single manifest file Discovery writes for the two example folders. -/
def exEmission : String × Json :=
  ("main_folders_3.json", Json.arr [entryJson exEntryApple, entryJson exEntryBanana])

/-- The single file Compaction writes for the run over entryA alone. -/
def exWrite : String × Json :=
  ("generated_img_lists/main_images.json",
   Json.obj [("folders", Json.arr [outFolderJson
     ⟨1, "imgs/a", ["imgs/a/frame_0001.png", "imgs/a/frame_0002.png"]⟩])])

/-- A directory listing with two matching manifest pairs whose count
suffixes compare differently as strings and as numbers. -/
def exManifestFiles : List String :=
  ["main_folders_10.json", "float_folders_10.json",
   "main_folders_9.json", "float_folders_9.json"]

/-! ## Helper lemmas -/

/-- The remove_duplicates loop equals the seen-set recursion up to the
accumulated output. -/
lemma dedupSeen_eq (l : List String) : ∀ (seen acc : List String),
    dedupSeen seen acc l = acc ++ keepFirstSeen seen l := by
  induction l with
  | nil => intro seen acc; simp [dedupSeen, keepFirstSeen]
  | cons x xs ih =>
    intro seen acc
    by_cases h : x ∈ seen
    · simp [dedupSeen, keepFirstSeen, h, ih]
    · simp [dedupSeen, keepFirstSeen, h, ih]

/-- The seen-set recursion is first-occurrence de-duplication of the not-yet
seen elements. -/
lemma keepFirstSeen_eq (l : List String) : ∀ seen : List String,
    keepFirstSeen seen l = keepFirst (l.filter (fun y => !seen.contains y)) := by
  induction l with
  | nil => intro seen; simp [keepFirstSeen, keepFirst]
  | cons x xs ih =>
    intro seen
    by_cases h : x ∈ seen
    · simp [keepFirstSeen, h, ih, List.filter_cons]
    · have hf : List.filter (fun y => !(x :: seen).contains y) xs =
          List.filter (fun a => decide (a ≠ x) && !seen.contains a) xs := by
        apply List.filter_congr
        intro y _
        by_cases hyx : y = x
        · simp [hyx, List.contains_cons]
        · simp [hyx, List.contains_cons]
      have hc : seen.contains x = false := by simpa using h
      simp only [keepFirstSeen, hc, Bool.false_eq_true, ite_false, List.filter_cons,
        Bool.not_false, ite_true]
      rw [ih]
      simp only [keepFirst]
      rw [List.filter_filter, hf]

/-- dedupFirst is exactly first-occurrence de-duplication. -/
lemma dedupFirst_eq (l : List String) : dedupFirst l = keepFirst l := by
  rw [dedupFirst, dedupSeen_eq, keepFirstSeen_eq]
  simp

/-- Members of keepFirst come from the input list. -/
lemma mem_keepFirst {y : String} : ∀ {l : List String}, y ∈ keepFirst l → y ∈ l := by
  intro l
  induction l using keepFirst.induct with
  | case1 => simp [keepFirst]
  | case2 x xs ih =>
    rw [keepFirst]
    intro h
    rcases List.mem_cons.mp h with h | h
    · simp [h]
    · exact List.mem_cons_of_mem _ (List.mem_filter.mp (ih h)).1

/-- keepFirst never repeats an element. -/
lemma nodup_keepFirst : ∀ l : List String, (keepFirst l).Nodup := by
  intro l
  induction l using keepFirst.induct with
  | case1 => simp [keepFirst]
  | case2 x xs ih =>
    rw [keepFirst]
    refine List.nodup_cons.mpr ⟨fun hx => ?_, ih⟩
    have := (List.mem_filter.mp (mem_keepFirst hx)).2
    simp at this

/-! ## Claim C10 -/

/-- C10: for every folder record emitted by Sequence Compaction the output
image_list has no duplicate paths; remove_duplicates keeps exactly the first
occurrence of each distinct path, in order of first occurrence, and leaves
the other record fields unchanged. -/
theorem claimC10_theorem :
    (∀ l : List String, dedupFirst l = keepFirst l ∧ (dedupFirst l).Nodup) ∧
    (∀ folders : List OutFolder, removeDuplicates folders =
      folders.map (fun f => { f with image_list := keepFirst f.image_list })) := by
  constructor
  · intro l
    refine ⟨dedupFirst_eq l, ?_⟩
    rw [dedupFirst_eq]
    exact nodup_keepFirst l
  · intro folders
    unfold removeDuplicates
    have : (fun f : OutFolder => { f with image_list := dedupFirst f.image_list }) =
        (fun f : OutFolder => { f with image_list := keepFirst f.image_list }) := by
      funext f
      rw [dedupFirst_eq]
    rw [this]

/-! ## Claim C9 -/

/-- C9 counterexample: a stale file present in the folders_processed
directory before a Discovery run is still there after the directory
preparation step, which only creates the directory when missing and never
wipes it; the claim that the directory is wiped so that no file carries over
is false on this state. -/
theorem claimC9_counterexample :
    ensureProcessedDir (some ["stale.json"]) = ["stale.json"] ∧
    "stale.json" ∈ ensureProcessedDir (some ["stale.json"]) := by
  exact ⟨rfl, by decide⟩

/-- C9 amended: at the start of a Discovery run the output directory is
created when missing, and when it already exists every file it holds is
carried over unchanged (no wipe happens). -/
theorem claimC9_amended : ∀ st : Option (List String),
    (st = none → ensureProcessedDir st = []) ∧
    (∀ f ∈ st.getD [], f ∈ ensureProcessedDir st) := by
  intro st
  constructor
  · intro h; rw [h]; rfl
  · intro f hf
    cases st with
    | none => simp at hf
    | some files => exact hf

/-- C9 amended witness: the directory is created empty from the missing
state, and the concrete stale file persists through the preparation step. -/
theorem claimC9_witness :
    ensureProcessedDir none = [] ∧
    "stale.json" ∈ ensureProcessedDir (some ["stale.json"]) :=
  ⟨(claimC9_amended none).1 rfl,
   (claimC9_amended (some ["stale.json"])).2 "stale.json" (by decide)⟩

/-! ## Claim C7: per-item failures do not abort a batch -/

/-- The discovery scan loop processes folders independently: its output over
a concatenation is the concatenation of outputs. -/
lemma gatherFolderCounts_append (fs : Dirs) (decode : String → Option (Nat × Nat × Bool)) :
    ∀ l₁ l₂ : List String, gatherFolderCounts fs decode (l₁ ++ l₂) =
      gatherFolderCounts fs decode l₁ ++ gatherFolderCounts fs decode l₂ := by
  intro l₁ l₂
  induction l₁ with
  | nil => simp [gatherFolderCounts]
  | cons a rest ih =>
    simp only [List.cons_append, gatherFolderCounts]
    cases hm : (((listDir fs a).getD []).filter isQualifying) with
    | nil => simpa [hm] using ih
    | cons first others => simp [hm, ih]

/-- C7: per-item failures never abort a batch.  First conjunct (Discovery,
get_folders_list.py lines 159-173): when decoding a folder's first image
fails, that folder is recorded with no first image, zero dimensions and no
alpha, and every folder before and after it is still processed.  Second
conjunct (Compaction, make_file_lists.py lines 144-152): a manifest entry
whose folder no longer exists is skipped and the entries around it are still
processed. -/
theorem claimC7_theorem :
    (∀ (fs : Dirs) (decode : String → Option (Nat × Nat × Bool))
       (l₁ l₂ : List String) (folder : String) (listing : List String)
       (first : String) (others : List String),
      listDir fs folder = some listing →
      listing.filter isQualifying = first :: others →
      decode (pyJoin folder first) = none →
      gatherFolderCounts fs decode (l₁ ++ folder :: l₂) =
        gatherFolderCounts fs decode l₁ ++
          FolderInfo.mk folder none 0 0 false (first :: others).length ::
            gatherFolderCounts fs decode l₂) ∧
    (∀ (fs : Dirs) (sd : String) (l₁ l₂ : List InEntry) (e : InEntry),
      listDir fs (pyJoin sd (normpath e.folder_rel)) = none →
      sortImageFiles fs sd (l₁ ++ e :: l₂) =
        sortImageFiles fs sd l₁ ++ sortImageFiles fs sd l₂) := by
  constructor
  · intro fs decode l₁ l₂ folder listing first others hdir hfilt hdec
    rw [gatherFolderCounts_append]
    congr 1
    simp [gatherFolderCounts, hdir, hfilt, hdec]
  · intro fs sd l₁ l₂ e hmiss
    have he : processEntry fs sd e = none := by
      simp [processEntry, hmiss]
    simp [sortImageFiles, List.filterMap_append, List.filterMap_cons, he]

/-- C7 witness: in the concrete filesystem, the always-failing decoder still
yields a record with zero dimensions for the scanned folder, and the entry
whose folder is missing is skipped while the two entries around it are still
emitted. -/
theorem claimC7_witness :
    (gatherFolderCounts exDirs exDecodeFail (["root/imgs/a"] ++ "root/imgs/mix" :: []) =
      gatherFolderCounts exDirs exDecodeFail ["root/imgs/a"] ++
        FolderInfo.mk "root/imgs/mix" none 0 0 false
            (("img_1.png" :: ["img_002.png"]).length) ::
          gatherFolderCounts exDirs exDecodeFail []) ∧
    (sortImageFiles exDirs "root" ([entryA] ++ entryGone :: [entryMix]) =
      sortImageFiles exDirs "root" [entryA] ++ sortImageFiles exDirs "root" [entryMix]) :=
  ⟨claimC7_theorem.1 exDirs exDecodeFail ["root/imgs/a"] [] "root/imgs/mix"
      ["img_1.png", "img_002.png"] "img_1.png" ["img_002.png"] rfl (by decide) rfl,
   claimC7_theorem.2 exDirs "root" [entryA] [entryMix] entryGone rfl⟩

/-! ## Claims C1 and C2: what Compaction emits per folder -/

/-- When a manifest entry's folder exists and holds a qualifying image, the
sort_image_files loop body emits the record with the explicit natural-sorted
path list. -/
lemma processEntry_eq (fs : Dirs) (sd : String) (e : InEntry) (listing : List String)
    (hdir : listDir fs (pyJoin sd (normpath e.folder_rel)) = some listing)
    (hne : listing.filter isQualifying ≠ []) :
    processEntry fs sd e = some ⟨e.index, normpath e.folder_rel,
      (List.insertionSort natLe (listing.filter isQualifying)).map
        (pyJoin (normpath e.folder_rel))⟩ := by
  simp [processEntry, hdir, hne]

/-- A record produced from a member entry is a member of the output list. -/
lemma mem_sortImageFiles {fs : Dirs} {sd : String} {entries : List InEntry}
    {e : InEntry} {r : OutFolder} (he : e ∈ entries)
    (hp : processEntry fs sd e = some r) : r ∈ sortImageFiles fs sd entries :=
  List.mem_filterMap.mpr ⟨e, he, hp⟩

/-- C1 counterexample: on the concrete folder, the record emitted by
Sequence Compaction carries exactly the keys index, folder_rel and
image_list — there is no image_pattern or max_file_index field — and its
image_list is an explicit listing with one path per image file, so the claim
that the record maps the folder to a compact
(image_pattern, max_file_index) representation instead of an explicit
listing is false. -/
theorem claimC1_counterexample :
    ((sortImageFiles exDirs "root" [entryA]).map (fun r => (outFolderJson r).objKeys)) =
      [["index", "folder_rel", "image_list"]] ∧
    "image_pattern" ∉
      (outFolderJson ((sortImageFiles exDirs "root" [entryA]).headD ⟨0, "", []⟩)).objKeys ∧
    (sortImageFiles exDirs "root" [entryA]).map (·.image_list) =
      [["imgs/a/frame_0001.png", "imgs/a/frame_0002.png"]] :=
  ⟨by decide, by decide, by decide⟩

/-- C1 amended: for every folder entry processed by Sequence Compaction
whose folder exists and holds at least one qualifying image, the emitted
record maps the folder to the fields index, folder_rel and image_list, where
image_list is the explicit list of the folder's qualifying image paths in
natural-sort order — not a compact pattern plus maximum index. -/
theorem claimC1_amended (fs : Dirs) (sd : String) (entries : List InEntry)
    (e : InEntry) (listing : List String) (he : e ∈ entries)
    (hdir : listDir fs (pyJoin sd (normpath e.folder_rel)) = some listing)
    (hne : listing.filter isQualifying ≠ []) :
    ∃ r ∈ sortImageFiles fs sd entries,
      outFolderJson r = Json.obj [("index", .num e.index),
        ("folder_rel", .str (normpath e.folder_rel)),
        ("image_list", .arr ((List.insertionSort natLe (listing.filter isQualifying)).map
          (fun f => .str (pyJoin (normpath e.folder_rel) f))))] := by
  refine ⟨_, mem_sortImageFiles he (processEntry_eq fs sd e listing hdir hne), ?_⟩
  simp [outFolderJson, List.map_map]

/-- C1 amended witness at the concrete folder. -/
theorem claimC1_witness :
    ∃ r ∈ sortImageFiles exDirs "root" [entryA],
      outFolderJson r = Json.obj [("index", .num (1 : Int)),
        ("folder_rel", .str (normpath "imgs/a")),
        ("image_list", .arr ((List.insertionSort natLe
            ((["frame_0002.png", "frame_0001.png", "notes.txt"] : List String).filter
              isQualifying)).map
          (fun f => .str (pyJoin (normpath "imgs/a") f))))] :=
  claimC1_amended exDirs "root" [entryA] entryA
    ["frame_0002.png", "frame_0001.png", "notes.txt"] (by decide) rfl (by decide)

/-- C2 counterexample: the concrete folder mixing the padding widths of
img_1.png and img_002.png is not dropped by Sequence Compaction: a full
record for it is emitted with both files, so the claim that a
mixed-padding folder is dropped wholesale with no record is false. -/
theorem claimC2_counterexample :
    specMixedPadding ["img_1.png", "img_002.png"] = true ∧
    listDir exDirs "root/imgs/mix" = some ["img_1.png", "img_002.png"] ∧
    sortImageFiles exDirs "root" [entryMix] =
      [⟨2, "imgs/mix", ["imgs/mix/img_1.png", "imgs/mix/img_002.png"]⟩] :=
  ⟨by decide, rfl, by decide⟩

/-- C2 amended: a folder whose files mix zero-padding widths is processed
exactly like any other folder: no padding check is performed, the folder is
never dropped for padding reasons, and its record includes every qualifying
file (each file's path appears in the emitted image_list). -/
theorem claimC2_amended (fs : Dirs) (sd : String) (entries : List InEntry)
    (e : InEntry) (listing : List String) (he : e ∈ entries)
    (hdir : listDir fs (pyJoin sd (normpath e.folder_rel)) = some listing)
    (hne : listing.filter isQualifying ≠ [])
    (_hmix : specMixedPadding (listing.filter isQualifying) = true) :
    ∃ r ∈ sortImageFiles fs sd entries,
      r.folder_rel = normpath e.folder_rel ∧
      r.image_list = (List.insertionSort natLe (listing.filter isQualifying)).map
        (pyJoin (normpath e.folder_rel)) ∧
      ∀ f ∈ listing.filter isQualifying,
        pyJoin (normpath e.folder_rel) f ∈ r.image_list := by
  refine ⟨_, mem_sortImageFiles he (processEntry_eq fs sd e listing hdir hne), rfl, rfl, ?_⟩
  intro f hf
  exact List.mem_map_of_mem _ ((List.mem_insertionSort natLe).mpr hf)

/-- C2 amended witness at the concrete mixed-padding folder. -/
theorem claimC2_witness :
    ∃ r ∈ sortImageFiles exDirs "root" [entryMix],
      r.folder_rel = normpath "imgs/mix" ∧
      r.image_list = (List.insertionSort natLe
          ((["img_1.png", "img_002.png"] : List String).filter isQualifying)).map
        (pyJoin (normpath "imgs/mix")) ∧
      ∀ f ∈ (["img_1.png", "img_002.png"] : List String).filter isQualifying,
        pyJoin (normpath "imgs/mix") f ∈ r.image_list :=
  claimC2_amended exDirs "root" [entryMix] entryMix ["img_1.png", "img_002.png"]
    (by decide) rfl (by decide) (by decide)

/-! ## Claims C3, C4 and C5: Discovery manifest emission -/

/-- A folder record with its index reset, for comparing entry lists up to
the assigned indices. -/
def stripIdx (fd : FolderData) : FolderData := { fd with index := 0 }

/-- The indices assigned by the enumerate loop are consecutive from its
start value. -/
lemma assignIdxFrom_map_index : ∀ (l : List FolderData) (n : Nat),
    (assignIdxFrom n l).map (·.index) = List.range' n l.length := by
  intro l
  induction l with
  | nil => intro n; simp [assignIdxFrom]
  | cons fd rest ih =>
    intro n
    simp [assignIdxFrom, List.range'_succ, ih]

/-- Index assignment preserves length. -/
lemma assignIdxFrom_length : ∀ (l : List FolderData) (n : Nat),
    (assignIdxFrom n l).length = l.length := by
  intro l
  induction l with
  | nil => intro n; rfl
  | cons fd rest ih => intro n; simp [assignIdxFrom, ih]

/-- Every element of an index-assigned list is an element of the input with
only its index changed. -/
lemma assignIdxFrom_mem : ∀ (l : List FolderData) (n : Nat) (b : FolderData),
    b ∈ assignIdxFrom n l → ∃ a ∈ l, ∃ k, b = { a with index := k } := by
  intro l
  induction l with
  | nil => intro n b h; simp [assignIdxFrom] at h
  | cons fd rest ih =>
    intro n b h
    rcases List.mem_cons.mp h with h | h
    · exact ⟨fd, List.mem_cons_self fd rest, n, h⟩
    · obtain ⟨a, ha, k, hk⟩ := ih (n + 1) b h
      exact ⟨a, List.mem_cons_of_mem fd ha, k, hk⟩

/-- Index assignment does not disturb the sort order, because the sort key
reads only folder_rel. -/
lemma pairwise_assignIdxFrom : ∀ (l : List FolderData) (n : Nat),
    List.Pairwise codeLe l → List.Pairwise codeLe (assignIdxFrom n l) := by
  intro l
  induction l with
  | nil => intro n _; exact List.Pairwise.nil
  | cons fd rest ih =>
    intro n h
    rcases List.pairwise_cons.mp h with ⟨hfd, hrest⟩
    refine List.pairwise_cons.mpr ⟨?_, ih (n + 1) hrest⟩
    intro b hb
    obtain ⟨a, ha, k, hk⟩ := assignIdxFrom_mem rest (n + 1) b hb
    rw [hk]
    exact hfd a ha

/-- Stripping indices undoes index assignment. -/
lemma stripIdx_assignIdxFrom : ∀ (l : List FolderData) (n : Nat),
    (assignIdxFrom n l).map stripIdx = l.map stripIdx := by
  intro l
  induction l with
  | nil => intro n; rfl
  | cons fd rest ih => intro n; simp [assignIdxFrom, stripIdx, ih]

/-- Each sub-group of a bucket holds only records whose file_count is the
sub-group's key. -/
def GroupsInv (g : List (Nat × List FolderData)) : Prop :=
  ∀ p ∈ g, ∀ fd ∈ p.2, fd.file_count = p.1

/-- The defaultdict append preserves the file-count invariant. -/
lemma groupAppend_inv : ∀ (g : List (Nat × List FolderData)) (k : Nat) (v : FolderData),
    GroupsInv g → v.file_count = k → GroupsInv (groupAppend g k v) := by
  intro g
  induction g with
  | nil =>
    intro k v _ hv p hp fd hfd
    simp [groupAppend] at hp
    rw [hp] at hfd ⊢
    simp at hfd
    rw [hfd, hv]
  | cons q rest ih =>
    intro k v hg hv p hp fd hfd
    by_cases hqk : q.1 = k
    · simp only [groupAppend, hqk, if_pos] at hp
      rcases List.mem_cons.mp hp with hp | hp
      · rw [hp] at hfd ⊢
        simp only at hfd ⊢
        rcases List.mem_append.mp hfd with hfd | hfd
        · rw [← hqk]
          exact hg q (List.mem_cons_self q rest) fd hfd
        · simp at hfd
          rw [hfd, hv]
      · exact hg p (List.mem_cons_of_mem q hp) fd hfd
    · simp only [groupAppend, hqk, if_neg, not_false_iff] at hp
      rcases List.mem_cons.mp hp with hp | hp
      · rw [hp] at hfd
        exact hp ▸ hg q (List.mem_cons_self q rest) fd hfd
      · exact ih k v (fun r hr => hg r (List.mem_cons_of_mem q hr)) hv p hp fd hfd

/-- Both buckets built by the grouping loop satisfy the file-count
invariant. -/
lemma buildGroups_inv : ∀ (fis : List FolderInfo) (sd : String)
    (acc : List (Nat × List FolderData) × List (Nat × List FolderData)),
    GroupsInv acc.1 → GroupsInv acc.2 →
    GroupsInv (fis.foldl (bucketStep sd) acc).1 ∧
      GroupsInv (fis.foldl (bucketStep sd) acc).2 := by
  intro fis
  induction fis with
  | nil => intro sd acc h1 h2; exact ⟨h1, h2⟩
  | cons fi rest ih =>
    intro sd acc h1 h2
    simp only [List.foldl_cons]
    apply ih
    · by_cases hb : startsWithB "255_" (basename fi.folder)
      · simpa [bucketStep, hb] using h1
      · simp only [bucketStep, hb, Bool.false_eq_true, if_neg, not_false_iff]
        exact groupAppend_inv acc.1 fi.file_count (mkFolderData sd fi) h1 rfl
    · by_cases hb : startsWithB "255_" (basename fi.folder)
      · simp only [bucketStep, hb, if_pos]
        exact groupAppend_inv acc.2 fi.file_count (mkFolderData sd fi) h2 rfl
      · simpa [bucketStep, hb] using h2

/-- The example Discovery run writes exactly the example emission. -/
lemma exEmission_mem : exEmission ∈ createFolderJsonFiles [infoApple, infoBanana] "/root" := by
  rw [show createFolderJsonFiles [infoApple, infoBanana] "/root" = [exEmission] from rfl]
  exact List.mem_singleton_self _

/-- Destructure membership in the emitted file list: every written pair
comes from a sub-group of one of the two buckets. -/
lemma createFolderJsonFiles_mem {infos : List FolderInfo} {sd : String}
    {fname : String} {content : Json}
    (hp : (fname, content) ∈ createFolderJsonFiles infos sd) :
    ∃ c sub, ((c, sub) ∈ (buildGroups sd infos).1 ∧ fname = mainNm c ∨
        (c, sub) ∈ (buildGroups sd infos).2 ∧ fname = floatNm c) ∧
      content = Json.arr ((assignIndices (List.insertionSort codeLe sub)).map entryJson) := by
  rcases List.mem_append.mp hp with h | h <;>
    obtain ⟨⟨c, sub⟩, hmem, heq⟩ := List.mem_map.mp h
  · exact ⟨c, sub, Or.inl ⟨hmem, (Prod.mk.injEq _ _ _ _ ▸ heq).1.symm⟩,
      ((Prod.mk.injEq _ _ _ _ ▸ heq).2).symm⟩
  · exact ⟨c, sub, Or.inr ⟨hmem, (Prod.mk.injEq _ _ _ _ ▸ heq).1.symm⟩,
      ((Prod.mk.injEq _ _ _ _ ▸ heq).2).symm⟩

/-- C3 counterexample: with two folders whose basenames order one way and
whose full relative paths order the other way, the emitted manifest orders
them by basename, not by full relative path as the claim states. -/
theorem claimC3_counterexample :
    emissionRels ((createFolderJsonFiles [infoApple, infoBanana] "/root").headD ("", .null)) =
      ["z/apple", "a/banana"] ∧
    (List.insertionSort claimLe
        [mkFolderData "/root" infoApple, mkFolderData "/root" infoBanana]).map
      (·.folder_rel) = ["a/banana", "z/apple"] ∧
    emissionRels ((createFolderJsonFiles [infoApple, infoBanana] "/root").headD ("", .null)) ≠
      (List.insertionSort claimLe
          [mkFolderData "/root" infoApple, mkFolderData "/root" infoBanana]).map
        (·.folder_rel) :=
  ⟨by decide, by decide, by decide⟩

/-- C3 amended: within every (bucket, file_count) sub-group, Discovery
orders entries by the primary key numeric-value-of-leading-token-or-infinity
with ties broken by ascending string comparison of the folder basename (not
the full relative path); the emitted entry list is such a sorted
rearrangement of the sub-group. -/
theorem claimC3_amended (infos : List FolderInfo) (sd : String)
    (fname : String) (content : Json)
    (hp : (fname, content) ∈ createFolderJsonFiles infos sd) :
    ∃ c sub, ((c, sub) ∈ (buildGroups sd infos).1 ∨ (c, sub) ∈ (buildGroups sd infos).2) ∧
      ∃ entries : List FolderData, content = Json.arr (entries.map entryJson) ∧
        List.Pairwise codeLe entries ∧
        List.Perm (entries.map stripIdx) (sub.map stripIdx) := by
  obtain ⟨c, sub, hcase, hcontent⟩ := createFolderJsonFiles_mem hp
  refine ⟨c, sub, by tauto, assignIndices (List.insertionSort codeLe sub), hcontent, ?_, ?_⟩
  · exact pairwise_assignIdxFrom _ 1 (List.sorted_insertionSort codeLe sub)
  · rw [assignIndices, stripIdx_assignIdxFrom]
    exact (List.perm_insertionSort codeLe sub).map stripIdx

/-- C3 amended witness at the concrete two-folder input. -/
theorem claimC3_witness :
    ∃ c sub, ((c, sub) ∈ (buildGroups "/root" [infoApple, infoBanana]).1 ∨
        (c, sub) ∈ (buildGroups "/root" [infoApple, infoBanana]).2) ∧
      ∃ entries : List FolderData, exEmission.2 = Json.arr (entries.map entryJson) ∧
        List.Pairwise codeLe entries ∧
        List.Perm (entries.map stripIdx) (sub.map stripIdx) :=
  claimC3_amended [infoApple, infoBanana] "/root" exEmission.1 exEmission.2 exEmission_mem

/-- C4 counterexample: the concrete Discovery manifest file is named by the
stated format, but its content is a bare JSON array, not an object of shape
folders-wrapping-a-list, so the claimed content shape is false. -/
theorem claimC4_counterexample :
    (createFolderJsonFiles [infoApple, infoBanana] "/root").map (·.1) =
      ["main_folders_3.json"] ∧
    Json.isFoldersObj
      ((createFolderJsonFiles [infoApple, infoBanana] "/root").headD ("", .null)).2 = false :=
  ⟨by decide, by decide⟩

/-- C4 amended: every Discovery manifest file written for a
(bucket, file_count) sub-group is named main_folders_N.json or
float_folders_N.json where N is the common file_count of its entries, and
its JSON content is the bare array of entry objects (not wrapped in a
folders object). -/
theorem claimC4_amended (infos : List FolderInfo) (sd : String)
    (fname : String) (content : Json)
    (hp : (fname, content) ∈ createFolderJsonFiles infos sd) :
    ∃ (c : Nat) (entries : List FolderData), (fname = mainNm c ∨ fname = floatNm c) ∧
      content = Json.arr (entries.map entryJson) ∧
      ∀ fd ∈ entries, fd.file_count = c := by
  obtain ⟨c, sub, hcase, hcontent⟩ := createFolderJsonFiles_mem hp
  have hsub : ∀ fd ∈ sub, fd.file_count = c := by
    rcases hcase with ⟨hmem, _⟩ | ⟨hmem, _⟩
    · exact fun fd hfd =>
        (buildGroups_inv infos sd ([], []) (by intro p hp2; simp at hp2)
          (by intro p hp2; simp at hp2)).1 (c, sub) hmem fd hfd
    · exact fun fd hfd =>
        (buildGroups_inv infos sd ([], []) (by intro p hp2; simp at hp2)
          (by intro p hp2; simp at hp2)).2 (c, sub) hmem fd hfd
  refine ⟨c, assignIndices (List.insertionSort codeLe sub), by tauto, hcontent, ?_⟩
  intro fd hfd
  obtain ⟨a, ha, k, hk⟩ := assignIdxFrom_mem _ 1 fd hfd
  rw [hk]
  exact hsub a ((List.mem_insertionSort codeLe).mp ha)

/-- C4 amended witness at the concrete two-folder input. -/
theorem claimC4_witness :
    ∃ (c : Nat) (entries : List FolderData), (exEmission.1 = mainNm c ∨ exEmission.1 = floatNm c) ∧
      exEmission.2 = Json.arr (entries.map entryJson) ∧
      ∀ fd ∈ entries, fd.file_count = c :=
  claimC4_amended [infoApple, infoBanana] "/root" exEmission.1 exEmission.2 exEmission_mem

/-- C5: in every emitted (bucket, file_count) sub-group manifest, the
assigned index values are exactly 1, 2, ... in emission order: contiguous,
gap-free, starting at origin 1 for every group and every run. -/
theorem claimC5_theorem (infos : List FolderInfo) (sd : String)
    (fname : String) (content : Json)
    (hp : (fname, content) ∈ createFolderJsonFiles infos sd) :
    ∃ entries : List FolderData, content = Json.arr (entries.map entryJson) ∧
      entries.map (·.index) = List.range' 1 entries.length := by
  obtain ⟨c, sub, _, hcontent⟩ := createFolderJsonFiles_mem hp
  refine ⟨assignIndices (List.insertionSort codeLe sub), hcontent, ?_⟩
  rw [assignIndices, assignIdxFrom_map_index, assignIdxFrom_length]

/-- C5 witness at the concrete two-folder input. -/
theorem claimC5_witness :
    ∃ entries : List FolderData, exEmission.2 = Json.arr (entries.map entryJson) ∧
      entries.map (·.index) = List.range' 1 entries.length :=
  claimC5_theorem [infoApple, infoBanana] "/root" exEmission.1 exEmission.2 exEmission_mem

/-! ## Claim C8: what Compaction writes -/

/-- Appending equal strings on the left preserves distinctness on the
right. -/
lemma appendCancelLeft {a b c : String} (h : a ++ b = a ++ c) : b = c := by
  apply String.ext
  have hd := congrArg String.data h
  rw [String.data_append, String.data_append] at hd
  exact List.append_cancel_left hd

/-- Joining two distinct relative file names onto one directory gives
distinct paths. -/
lemma pyJoin_right_ne (gd : String) {a b : String} (hne : a ≠ b)
    (ha : startsWithB "/" a = false) (hb : startsWithB "/" b = false) :
    pyJoin gd a ≠ pyJoin gd b := by
  unfold pyJoin
  simp only [ha, hb, Bool.false_eq_true, if_false]
  by_cases hgd : gd = ""
  · simpa [hgd] using hne
  · simp only [hgd, if_false]
    by_cases hend : endsWithB gd "/" = true
    · simp only [hend, if_true]
      intro h
      exact hne (appendCancelLeft h)
    · simp only [hend, Bool.false_eq_true, if_false]
      intro h
      exact hne (appendCancelLeft h)

/-- C8 counterexample: a run whose float list is empty writes exactly one
file, the plain main_images.json, with no float file and no gzip copy of
anything; the claim that exactly two JSON files plus gzip copies are always
written is false. -/
theorem claimC8_counterexample :
    (processPairWrites exDirs "root" "generated_img_lists" [entryA] []).map (·.1) =
      ["generated_img_lists/main_images.json"] :=
  by decide

/-- C8 amended: Sequence Compaction writes at most two plain JSON files —
main_images.json exactly when the processed main list is nonempty and
float_images.json exactly when the processed float list is nonempty — each
of shape folders-wrapping-an-array, and writes nothing else (in particular
no gzip copies). -/
theorem claimC8_amended (fs : Dirs) (sd gd : String) (mainE floatE : List InEntry) :
    (∀ p ∈ processPairWrites fs sd gd mainE floatE,
        p.1 = pyJoin gd "main_images.json" ∨ p.1 = pyJoin gd "float_images.json") ∧
    ((∃ p ∈ processPairWrites fs sd gd mainE floatE,
        p.1 = pyJoin gd "main_images.json") ↔
      removeDuplicates (sortImageFiles fs sd mainE) ≠ []) ∧
    ((∃ p ∈ processPairWrites fs sd gd mainE floatE,
        p.1 = pyJoin gd "float_images.json") ↔
      removeDuplicates (sortImageFiles fs sd floatE) ≠ []) ∧
    (∀ p ∈ processPairWrites fs sd gd mainE floatE, Json.isFoldersObj p.2 = true) := by
  have hmf : pyJoin gd "main_images.json" ≠ pyJoin gd "float_images.json" :=
    pyJoin_right_ne gd (by decide) (by decide) (by decide)
  unfold processPairWrites
  by_cases h1 : removeDuplicates (sortImageFiles fs sd mainE) = [] <;>
    by_cases h2 : removeDuplicates (sortImageFiles fs sd floatE) = [] <;>
    simp [h1, h2, writeJsonList, Json.isFoldersObj, hmf, Ne.symm hmf]

/-- The concrete Compaction run writes exactly the example file. -/
lemma exWrite_mem :
    exWrite ∈ processPairWrites exDirs "root" "generated_img_lists" [entryA] [] := by
  rw [show processPairWrites exDirs "root" "generated_img_lists" [entryA] [] = [exWrite]
    from rfl]
  exact List.mem_singleton_self _

/-- C8 amended witness: the one file written in the concrete run is the main
manifest with the folders-wrapper shape. -/
theorem claimC8_witness :
    (exWrite.1 = pyJoin "generated_img_lists" "main_images.json" ∨
      exWrite.1 = pyJoin "generated_img_lists" "float_images.json") ∧
    Json.isFoldersObj exWrite.2 = true :=
  ⟨(claimC8_amended exDirs "root" "generated_img_lists" [entryA] []).1 exWrite exWrite_mem,
   (claimC8_amended exDirs "root" "generated_img_lists" [entryA] []).2.2.2 exWrite exWrite_mem⟩

/-! ## Claim C6: deterministic pair selection -/

/-- A successful anchored pattern match decomposes the file name into the
leading literal, the captured digit group, and the trailing literal. -/
lemma regexKey_eq_some {lead trail name k : String}
    (h : regexKey lead trail name = some k) :
    name = lead ++ k ++ trail := by
  unfold regexKey at h
  split at h
  case isFalse => exact absurd h (by simp)
  case isTrue hc =>
    obtain rfl := Option.some.inj h
    simp only [Bool.and_eq_true, decide_eq_true_eq] at hc
    obtain ⟨⟨⟨hpre, hsuf⟩, hlen⟩, _⟩ := hc
    obtain ⟨t, ht⟩ := hpre
    obtain ⟨u, hu⟩ := hsuf
    have hulen : u.length + trail.data.length = name.data.length := by
      have := congrArg List.length hu
      simpa using this
    have hLu : lead.data.length ≤ u.length := by omega
    have hdropd : name.data.drop lead.data.length =
        u.drop lead.data.length ++ trail.data := by
      conv_lhs => rw [← hu]
      rw [List.drop_append_eq_append_drop, Nat.sub_eq_zero_of_le hLu, List.drop_zero]
    have hn : name.data.length - (lead.data.length + trail.data.length) =
        (u.drop lead.data.length).length := by
      rw [List.length_drop]
      omega
    have hkd2 : (name.data.drop lead.data.length).take
        (name.data.length - (lead.data.length + trail.data.length)) =
          u.drop lead.data.length := by
      rw [hdropd, hn, List.take_left]
    have hlead : u.take lead.data.length = lead.data := by
      have h12 : (lead.data ++ t).take lead.data.length =
          (u ++ trail.data).take lead.data.length := by
        rw [ht, hu]
      rw [List.take_left] at h12
      rw [List.take_append_eq_append_take, Nat.sub_eq_zero_of_le hLu, List.take_zero,
        List.append_nil] at h12
      exact h12.symm
    have hu2 : lead.data ++ (String.mk ((name.data.drop lead.data.length).take
        (name.data.length - (lead.data.length + trail.data.length)))).data = u := by
      have htad := List.take_append_drop lead.data.length u
      rw [hlead] at htad
      rw [show (String.mk ((name.data.drop lead.data.length).take
          (name.data.length - (lead.data.length + trail.data.length)))).data =
            (name.data.drop lead.data.length).take
              (name.data.length - (lead.data.length + trail.data.length)) from rfl,
        hkd2]
      exact htad
    apply String.ext
    rw [String.data_append, String.data_append, hu2, hu]

/-- Every entry of the scanned dictionary stores the joined path of the file
name rebuilt from the pattern around its key. -/
def DictInv (lead trail pd : String) (m : List (String × String)) : Prop :=
  ∀ p ∈ m, p.2 = pyJoin pd (lead ++ p.1 ++ trail)

/-- Python dict assignment preserves the stored-path invariant. -/
lemma dictInsert_inv {lead trail pd : String} {m : List (String × String)}
    {k v : String} (hm : DictInv lead trail pd m)
    (hv : v = pyJoin pd (lead ++ k ++ trail)) :
    DictInv lead trail pd (dictInsert m k v) := by
  intro p hp
  unfold dictInsert at hp
  split at hp
  · obtain ⟨q, hq, hpq⟩ := List.mem_map.mp hp
    by_cases hqk : q.1 = k
    · simp only [hqk, if_pos] at hpq
      rw [← hpq]
      simpa using hv
    · simp only [hqk, if_neg, not_false_iff] at hpq
      rw [← hpq]
      exact hm q hq
  · rcases List.mem_append.mp hp with hp | hp
    · exact hm p hp
    · have : p = (k, v) := by simpa using hp
      rw [this]
      simpa using hv

/-- The scan loop builds a dictionary satisfying the stored-path
invariant. -/
lemma buildFiles_inv (lead trail pd : String) (files : List String) :
    DictInv lead trail pd (buildFiles lead trail pd files) := by
  suffices h : ∀ (fs : List String) (m : List (String × String)),
      DictInv lead trail pd m → DictInv lead trail pd (fs.foldl (dictStep lead trail pd) m) by
    exact h files [] (by intro p hp; simp at hp)
  intro fs
  induction fs with
  | nil => intro m hm; exact hm
  | cons name rest ih =>
    intro m hm
    simp only [List.foldl_cons]
    apply ih
    unfold dictStep
    cases hk : regexKey lead trail name with
    | none => exact hm
    | some k => exact dictInsert_inv hm (by rw [regexKey_eq_some hk])

/-- A key present among a dictionary's keys is found, together with its
stored value. -/
lemma dictFind_of_key_mem : ∀ (m : List (String × String)) (k : String),
    k ∈ m.map (·.1) → ∃ v, dictFind m k = some v ∧ (k, v) ∈ m := by
  intro m
  induction m with
  | nil => intro k hk; simp at hk
  | cons p rest ih =>
    intro k hk
    by_cases hpk : p.1 = k
    · refine ⟨p.2, ?_, ?_⟩
      · simp [dictFind, List.find?_cons, hpk]
      · have hpe : p = (k, p.2) := by
          rw [← hpk]
        exact hpe ▸ List.mem_cons_self p rest
    · have hk2 : k ∈ rest.map (·.1) := by
        rcases List.mem_map.mp hk with ⟨q, hq, hq1⟩
        rcases List.mem_cons.mp hq with hq | hq
        · exact absurd (hq ▸ hq1) hpk
        · exact List.mem_map.mpr ⟨q, hq, hq1⟩
      obtain ⟨v, hv, hvmem⟩ := ih k hk2
      refine ⟨v, ?_, List.mem_cons_of_mem p hvmem⟩
      simpa [dictFind, List.find?_cons, hpk] using hv

/-- The head of a strLe-sorted list is a lower bound for it. -/
lemma sorted_head_min {k : String} {rest : List String}
    (h : List.Sorted strLe (k :: rest)) : ∀ k2 ∈ k :: rest, strLe k k2 := by
  intro k2 hk2
  rcases List.mem_cons.mp hk2 with h2 | h2
  · rw [h2]
    unfold strLe
    exact le_refl _
  · exact List.rel_of_sorted_cons h k2 h2

/-- C6: when matching (main_folders_N.json, float_folders_N.json) pairs
exist, Manifest Pairing returns the pair whose captured digit-group N is the
lexicographically (string-order) smallest matching key. -/
theorem claimC6_theorem (pd : String) (files : List String)
    (hne : matchingKeys pd files ≠ []) :
    ∃ k, k ∈ matchingKeys pd files ∧ (∀ k2 ∈ matchingKeys pd files, strLe k k2) ∧
      findDefaultJsons pd files =
        some (pyJoin pd ("main_folders_" ++ k ++ ".json"),
          pyJoin pd ("float_folders_" ++ k ++ ".json")) := by
  cases hs : List.insertionSort strLe (matchingKeys pd files) with
  | nil =>
    exact absurd ((hs ▸ List.perm_insertionSort strLe (matchingKeys pd files)).symm.eq_nil) hne
  | cons k rest =>
    have hkmem : k ∈ matchingKeys pd files :=
      (List.mem_insertionSort strLe).mp (hs ▸ List.mem_cons_self k rest)
    have hmin : ∀ k2 ∈ matchingKeys pd files, strLe k k2 := by
      intro k2 h2
      exact sorted_head_min (hs ▸ List.sorted_insertionSort strLe (matchingKeys pd files))
        k2 (hs ▸ (List.mem_insertionSort strLe).mpr h2)
    have hksplit := List.mem_filter.mp hkmem
    have hkfloat : k ∈ (buildFiles "float_folders_" ".json" pd files).map (·.1) := hksplit.1
    have hkmain : k ∈ (buildFiles "main_folders_" ".json" pd files).map (·.1) := by
      have := hksplit.2
      simpa [List.contains, List.elem_iff] using this
    obtain ⟨vm, hvm, hvmmem⟩ := dictFind_of_key_mem _ k hkmain
    obtain ⟨vf, hvf, hvfmem⟩ := dictFind_of_key_mem _ k hkfloat
    have hvmval : vm = pyJoin pd ("main_folders_" ++ k ++ ".json") :=
      buildFiles_inv "main_folders_" ".json" pd files (k, vm) hvmmem
    have hvfval : vf = pyJoin pd ("float_folders_" ++ k ++ ".json") :=
      buildFiles_inv "float_folders_" ".json" pd files (k, vf) hvfmem
    refine ⟨k, hkmem, hmin, ?_⟩
    unfold findDefaultJsons
    rw [hs]
    simp only [hvm, hvf, Option.getD_some]
    rw [hvmval, hvfval]

/-- C6 witness: with pairs for both the keys 10 and 9 present, the selection
picks key 10, the string-smallest (not the numerically smallest) match. -/
theorem claimC6_witness :
    ∃ k, k ∈ matchingKeys "folders_processed" exManifestFiles ∧
      (∀ k2 ∈ matchingKeys "folders_processed" exManifestFiles, strLe k k2) ∧
      findDefaultJsons "folders_processed" exManifestFiles =
        some (pyJoin "folders_processed" ("main_folders_" ++ k ++ ".json"),
          pyJoin "folders_processed" ("float_folders_" ++ k ++ ".json")) :=
  claimC6_theorem "folders_processed" exManifestFiles (by decide)

end VideoInterleaving
